import Mathlib

/-
Verification of go-notion-tools: a shallow embedding in Lean 4 of the
repository's property-value extraction logic
(src/internal/notion/notion.go), the paginated query pipeline and the
person-upsert flow (src/main.go, two command variants), together with
proofs of the specification's claims about them.
-/

namespace NotionTools

/- ===== String helpers modelling the Go standard library ===== -/

/-- Model of Go's unicode.IsSpace: the Unicode White_Space property
(tab, newline, vertical tab, form feed, carriage return, space, NEL,
no-break space, ogham space mark, the U+2000 block, line and paragraph
separators, narrow no-break space, medium mathematical space,
ideographic space). -/
def goIsSpace (c : Char) : Bool :=
  c == ' ' || c == '\t' || c == '\n' || c == '\r' ||
  c == Char.ofNat 11 || c == Char.ofNat 12 ||
  c == Char.ofNat 0x85 || c == Char.ofNat 0xA0 ||
  c == Char.ofNat 0x1680 ||
  (0x2000 ≤ c.toNat && c.toNat ≤ 0x200A) ||
  c == Char.ofNat 0x2028 || c == Char.ofNat 0x2029 ||
  c == Char.ofNat 0x202F || c == Char.ofNat 0x205F ||
  c == Char.ofNat 0x3000

/-- Model of Go's strings.TrimSpace: remove leading and trailing
white space characters. -/
def goTrimSpace (s : String) : String :=
  String.mk (((s.data.dropWhile goIsSpace).reverse.dropWhile goIsSpace).reverse)

/-- Decimal digits of a natural number, most significant first; the fuel
argument bounds the recursion (natRepr supplies enough fuel for any input). -/
def natDigitsCore : Nat → Nat → List Char → List Char
  | 0, _, acc => acc
  | fuel + 1, n, acc =>
    let d := Char.ofNat (48 + n % 10)
    if n < 10 then d :: acc else natDigitsCore fuel (n / 10) (d :: acc)

/-- Decimal representation of a natural number (model of Go's %d for the
status code in error messages). -/
def natRepr (n : Nat) : String :=
  String.mk (natDigitsCore (n + 1) n [])

/-- Model of a Go float64 value as classified by strconv.FormatFloat:
NaN, an infinity, or a finite value given by its sign and its (shortest
round-trip) decimal mantissa and decimal exponent. -/
inductive Float64 where
  | nan : Float64
  | inf (neg : Bool) : Float64
  | finite (neg : Bool) (mantissa : Nat) (exp : Int) : Float64
deriving DecidableEq, Repr

/-- Insert a decimal point k digits from the right of a digit list,
padding with zeros as Go's 'f' formatting does ("0.05", "2.5"). -/
def decimalShift (digits : List Char) (k : Nat) : List Char :=
  if k = 0 then digits
  else if digits.length ≤ k then
    '0' :: '.' :: (List.replicate (k - digits.length) '0' ++ digits)
  else
    digits.take (digits.length - k) ++ '.' :: digits.drop (digits.length - k)

/-- Model of Go's strconv.FormatFloat(f, 'f', -1, 64): "NaN", "+Inf",
"-Inf", or the shortest round-trip decimal form without an exponent. -/
def formatFloat : Float64 → String
  | .nan => "NaN"
  | .inf neg => if neg then "-Inf" else "+Inf"
  | .finite neg m e =>
    let s :=
      if 0 ≤ e then natRepr (m * 10 ^ e.toNat)
      else String.mk (decimalShift (natRepr m).data (-e).toNat)
    if neg then "-" ++ s else s

/-- Model of Go's strconv.FormatBool. -/
def formatBool (b : Bool) : String :=
  if b then "true" else "false"

/-- Does the character list l start with the character list s? -/
def takeEq : List Char → List Char → Bool
  | [], _ => true
  | _ :: _, [] => false
  | a :: as, b :: bs => a == b && takeEq as bs

/-- Does the character list hay contain needle as a contiguous sublist? -/
def containsSubAux (needle : List Char) : List Char → Bool
  | [] => takeEq needle []
  | c :: cs => takeEq needle (c :: cs) || containsSubAux needle cs

/-- Does the string hay contain the string needle as a substring? -/
def strContains (hay needle : String) : Bool :=
  containsSubAux needle.data hay.data

/-- Core of the model of Go's strings.Split for a non-empty separator
s0 :: srest: cut the input around each leftmost non-overlapping
occurrence of the separator.  The fuel argument bounds the recursion;
stringsSplit supplies enough fuel for any input. -/
def splitGoCore : Nat → Char → List Char → List Char → List Char → List (List Char)
  | 0, _, _, s, acc => [acc.reverse ++ s]
  | fuel + 1, s0, srest, s, acc =>
    match s with
    | [] => [acc.reverse]
    | c :: cs =>
      if c == s0 && takeEq srest cs then
        acc.reverse :: splitGoCore fuel s0 srest (cs.drop srest.length) []
      else
        splitGoCore fuel s0 srest cs (c :: acc)

/-- Model of Go's strings.Split: split around each non-overlapping
occurrence of sep (for empty sep, split into individual characters). -/
def stringsSplit (s sep : String) : List String :=
  match sep.data with
  | [] => s.data.map (fun c => String.mk [c])
  | c0 :: rest => (splitGoCore (s.data.length + 1) c0 rest s.data []).map String.mk

/- ===== Data model (src/internal/notion/notion.go) ===== -/

/-- DefaultPageSize is the default page size for queries. -/
def DefaultPageSize : Nat := 100

/-- TextContent is the text payload of a rich-text fragment; it appears
in the page construction of the upsert variant (src/main.go). -/
structure TextContent where
  content : String
deriving DecidableEq, Repr

/-- RichText represents rich text.  plain_text is the field read by the
extractor; the type and text fields appear in the upsert variant's page
construction (src/main.go). -/
structure RichText where
  plainText : String := ""
  type : String := ""
  text : Option TextContent := none
deriving DecidableEq, Repr

/-- SelectOption represents a select option. -/
structure SelectOption where
  name : String := ""
deriving DecidableEq, Repr

/-- User represents a user. -/
structure User where
  id : String := ""
  name : String := ""
deriving DecidableEq, Repr

/-- DateValue represents a date value. -/
structure DateValue where
  start : String := ""
  «end» : Option String := none
deriving DecidableEq, Repr

/-- RelationRef represents a relation reference. -/
structure RelationRef where
  id : String
deriving DecidableEq, Repr

/-- FormulaValue represents a formula value. -/
structure FormulaValue where
  type : String := ""
  string : Option String := none
  number : Option Float64 := none
  boolean : Option Bool := none
  date : Option DateValue := none
deriving DecidableEq, Repr

mutual

/-- PropertyValue represents a property value: Go models Notion's tagged
union as one struct whose Type discriminator selects which payload field
is meaningful.  Field order follows the Go struct. -/
inductive PropertyValue where
  | mk (id type : String) (title richText : List RichText)
       (select : Option SelectOption) (multiSelect : List SelectOption)
       (status : Option SelectOption) (people : List User)
       (email url phoneNumber : Option String) (number : Option Float64)
       (checkbox : Option Bool) (date : Option DateValue)
       (relation : List RelationRef) (formula : Option FormulaValue)
       (rollup : Option RollupValue) : PropertyValue

/-- RollupValue represents a rollup value; its array variant nests
further PropertyValues. -/
inductive RollupValue where
  | mk (type : String) (number : Option Float64) (date : Option DateValue)
       (array : List PropertyValue) : RollupValue

end

def PropertyValue.id : PropertyValue → String
  | .mk i _ _ _ _ _ _ _ _ _ _ _ _ _ _ _ _ => i

def PropertyValue.type : PropertyValue → String
  | .mk _ t _ _ _ _ _ _ _ _ _ _ _ _ _ _ _ => t

def PropertyValue.title : PropertyValue → List RichText
  | .mk _ _ t _ _ _ _ _ _ _ _ _ _ _ _ _ _ => t

def PropertyValue.richText : PropertyValue → List RichText
  | .mk _ _ _ r _ _ _ _ _ _ _ _ _ _ _ _ _ => r

def PropertyValue.select : PropertyValue → Option SelectOption
  | .mk _ _ _ _ s _ _ _ _ _ _ _ _ _ _ _ _ => s

def PropertyValue.multiSelect : PropertyValue → List SelectOption
  | .mk _ _ _ _ _ m _ _ _ _ _ _ _ _ _ _ _ => m

def PropertyValue.status : PropertyValue → Option SelectOption
  | .mk _ _ _ _ _ _ s _ _ _ _ _ _ _ _ _ _ => s

def PropertyValue.people : PropertyValue → List User
  | .mk _ _ _ _ _ _ _ p _ _ _ _ _ _ _ _ _ => p

def PropertyValue.email : PropertyValue → Option String
  | .mk _ _ _ _ _ _ _ _ e _ _ _ _ _ _ _ _ => e

def PropertyValue.url : PropertyValue → Option String
  | .mk _ _ _ _ _ _ _ _ _ u _ _ _ _ _ _ _ => u

def PropertyValue.phoneNumber : PropertyValue → Option String
  | .mk _ _ _ _ _ _ _ _ _ _ p _ _ _ _ _ _ => p

def PropertyValue.number : PropertyValue → Option Float64
  | .mk _ _ _ _ _ _ _ _ _ _ _ n _ _ _ _ _ => n

def PropertyValue.checkbox : PropertyValue → Option Bool
  | .mk _ _ _ _ _ _ _ _ _ _ _ _ c _ _ _ _ => c

def PropertyValue.date : PropertyValue → Option DateValue
  | .mk _ _ _ _ _ _ _ _ _ _ _ _ _ d _ _ _ => d

def PropertyValue.relation : PropertyValue → List RelationRef
  | .mk _ _ _ _ _ _ _ _ _ _ _ _ _ _ r _ _ => r

def PropertyValue.formula : PropertyValue → Option FormulaValue
  | .mk _ _ _ _ _ _ _ _ _ _ _ _ _ _ _ f _ => f

def PropertyValue.rollup : PropertyValue → Option RollupValue
  | .mk _ _ _ _ _ _ _ _ _ _ _ _ _ _ _ _ r => r

def RollupValue.type : RollupValue → String
  | .mk t _ _ _ => t

def RollupValue.number : RollupValue → Option Float64
  | .mk _ n _ _ => n

def RollupValue.date : RollupValue → Option DateValue
  | .mk _ _ d _ => d

def RollupValue.array : RollupValue → List PropertyValue
  | .mk _ _ _ a => a

/-- The Go zero value of PropertyValue (all fields empty or absent). -/
def PropertyValue.zero : PropertyValue :=
  .mk "" "" [] [] none [] none [] none none none none none none [] none none

/-- concatRichText concatenates the plain text of all fragments and
trims surrounding white space (src/internal/notion/notion.go). -/
def concatRichText (rts : List RichText) : String :=
  goTrimSpace (rts.foldl (fun b rt => b ++ rt.plainText) "")

mutual

/-- ExtractStrings extracts string values from a property value
(src/internal/notion/notion.go, lines 185-353): a switch on the Type
discriminator, returning zero or more display strings. -/
def ExtractStrings : PropertyValue → List String
  | .mk _ ty title rich sel ms st ppl em u ph num cb dt rel f ro =>
    match ty with
    | "title" =>
      if concatRichText title = "" then [] else [concatRichText title]
    | "rich_text" =>
      if concatRichText rich = "" then [] else [concatRichText rich]
    | "select" =>
      match sel with
      | none => []
      | some o => if o.name = "" then [] else [o.name]
    | "status" =>
      match st with
      | none => []
      | some o => if o.name = "" then [] else [o.name]
    | "multi_select" =>
      if ms.isEmpty then []
      else ms.filterMap (fun o => if o.name = "" then none else some o.name)
    | "people" =>
      if ppl.isEmpty then []
      else ppl.filterMap (fun u =>
        if u.name ≠ "" then some u.name
        else if u.id ≠ "" then some u.id
        else none)
    | "email" =>
      match em with
      | none => []
      | some s => if s = "" then [] else [s]
    | "url" =>
      match u with
      | none => []
      | some s => if s = "" then [] else [s]
    | "phone_number" =>
      match ph with
      | none => []
      | some s => if s = "" then [] else [s]
    | "number" =>
      match num with
      | none => []
      | some x => [formatFloat x]
    | "checkbox" =>
      match cb with
      | none => []
      | some b => [formatBool b]
    | "date" =>
      match dt with
      | none => []
      | some d =>
        if d.start = "" then []
        else
          match d.«end» with
          | some e => if e ≠ "" then [d.start ++ " → " ++ e] else [d.start]
          | none => [d.start]
    | "relation" =>
      if rel.isEmpty then []
      else rel.filterMap (fun r => if r.id ≠ "" then some r.id else none)
    | "formula" =>
      match f with
      | none => []
      | some fv =>
        match fv.type with
        | "string" =>
          match fv.string with
          | none => []
          | some s => if s = "" then [] else [s]
        | "number" =>
          match fv.number with
          | none => []
          | some x => [formatFloat x]
        | "boolean" =>
          match fv.boolean with
          | none => []
          | some b => [formatBool b]
        | "date" =>
          match fv.date with
          | none => []
          | some d =>
            if d.start = "" then []
            else
              match d.«end» with
              | some e => if e ≠ "" then [d.start ++ " → " ++ e] else [d.start]
              | none => [d.start]
        | _ => []
    | "rollup" =>
      match ro with
      | none => []
      | some (.mk rty rnum rdt arr) =>
        match rty with
        | "number" =>
          match rnum with
          | none => []
          | some x => [formatFloat x]
        | "date" =>
          match rdt with
          | none => []
          | some d =>
            if d.start = "" then []
            else
              match d.«end» with
              | some e => if e ≠ "" then [d.start ++ " → " ++ e] else [d.start]
              | none => [d.start]
        | "array" => extractList arr
        | _ => []
    | _ => []

/-- The loop over a rollup array inside ExtractStrings: extract every
nested property value and concatenate the results in order. -/
def extractList : List PropertyValue → List String
  | [] => []
  | x :: xs => ExtractStrings x ++ extractList xs

end

/- ===== Query pipeline (src/main.go, basic variant) ===== -/

/-- Page represents a Notion page; the Go property map is modelled as an
association list from property name to value. -/
structure Page where
  object : String := ""
  id : String := ""
  properties : List (String × PropertyValue) := []

/-- Lookup of a property by name in a page's property map
(pg.Properties[field] in Go). -/
def lookupProp (props : List (String × PropertyValue)) (name : String) :
    Option PropertyValue :=
  match props with
  | [] => none
  | (k, v) :: rest => if k = name then some v else lookupProp rest name

/-- QueryRequest represents a query request (page_size, start_cursor). -/
structure QueryRequest where
  pageSize : Nat
  startCursor : Option String
deriving DecidableEq, Repr

/-- QueryResponse represents a query response. -/
structure QueryResponse where
  object : String := ""
  results : List Page := []
  hasMore : Bool := false
  nextCursor : Option String := none

/-- The fatal errors the query loop can hit: a returned page lacking the
configured property (main.go line 67), or the environment supplying no
response for an issued request (a transport failure, fatal in main.go
line 61). -/
inductive RunError where
  | missingProperty (field : String) : RunError
  | noResponse : RunError
deriving DecidableEq, Repr

/-- The lines printed for one property value in the basic variant's
inner loop: each extracted value is trimmed and dropped if empty
(src/main.go lines 70-77). -/
def emitVals (p : PropertyValue) : List String :=
  ((ExtractStrings p).map goTrimSpace).filter (fun v => !(v == ""))

/-- The per-response page loop of the basic variant (src/main.go lines
64-78): for each returned page look up the configured property, aborting
at the first page that lacks it, otherwise print its trimmed non-empty
extracted values.  Returns the lines printed before any abort, and the
fatal error if one occurred. -/
def processResults (field : String) : List Page → List String × Option RunError
  | [] => ([], none)
  | pg :: pgs =>
    match lookupProp pg.properties field with
    | none => ([], some (.missingProperty field))
    | some prop =>
      let rest := processResults field pgs
      (emitVals prop ++ rest.1, rest.2)

/-- The pagination loop of the basic variant (src/main.go lines 52-84),
run against a script of query responses consumed in order: issue a
request carrying the current cursor, process the response's pages, then
stop unless has_more is true and next_cursor is present and non-empty,
in which case continue with next_cursor.  Returns the requests issued,
the lines printed, and the fatal error if one occurred. -/
def queryLoop (field : String) (cursor : Option String) :
    List QueryResponse → List QueryRequest × List String × Option RunError
  | [] => ([⟨DefaultPageSize, cursor⟩], [], some .noResponse)
  | resp :: rest =>
    let req : QueryRequest := ⟨DefaultPageSize, cursor⟩
    let here := processResults field resp.results
    match here.2 with
    | some e => ([req], here.1, some e)
    | none =>
      if !resp.hasMore || resp.nextCursor == none || resp.nextCursor == some "" then
        ([req], here.1, none)
      else
        let next := queryLoop field resp.nextCursor rest
        (req :: next.1, here.1 ++ next.2.1, next.2.2)

/- ===== Unique mode (basic variant with the -unique flag) ===== -/

/-- Insert a string into a list sorted in non-decreasing order of their
character sequences (byte order of Go's sort.Strings, modelled on
characters). -/
def charListLe : List Char → List Char → Bool
  | [], _ => true
  | _ :: _, [] => false
  | a :: as, b :: bs =>
    if a.toNat < b.toNat then true
    else if b.toNat < a.toNat then false
    else charListLe as bs

/-- Insertion of a string into a sorted list (helper of sortStrings). -/
def insertStr (a : String) : List String → List String
  | [] => [a]
  | b :: bs => if charListLe a.data b.data then a :: b :: bs else b :: insertStr a bs

/-- Insertion sort of strings in lexicographic order (model of Go's
sort.Strings). -/
def sortStrings : List String → List String
  | [] => []
  | a :: as => insertStr a (sortStrings as)

/-- Deduplicate keeping first occurrences, then sort: the final output
of unique mode. -/
def sortDedup (l : List String) : List String :=
  sortStrings (l.foldl (fun acc v => if acc.contains v then acc else acc ++ [v]) [])

/-- Modelled from the spec: the basic variant's -unique flag (the
variant carrying it is absent from src/; the spec says values are
accumulated into a deduplicating set during the traversal and printed
sorted only after the full traversal completes, while streaming mode
prints each value as it is extracted, as in src/main.go's loop; an
error aborts the run before any final output).  The first component is
the lines printed during the traversal, the second the lines printed
after it ends. -/
def runBasic (unique : Bool) (field : String) (script : List QueryResponse) :
    List String × List String :=
  let res := queryLoop field none script
  if unique then
    ([], if res.2.2 == none then sortDedup res.2.1 else [])
  else
    (res.2.1, [])

/- ===== Person upsert flow (src/main.go, extended variant) ===== -/

/-- NotionPeopleDatabaseID from the upsert variant of src/main.go. -/
def NotionPeopleDatabaseID : String := "2e7e1d14-ea06-80f8-8635-000bc244940f"

/-- extractPersons (src/main.go lines 239-247): split the Who string on
the literal separator ", " and trim each resulting token (empty tokens
are kept). -/
def extractPersons (who : String) : List String :=
  (stringsSplit who ", ").map goTrimSpace

/-- The Notion API calls the upsert flow can issue for one source page.
Modelled from the spec: the client methods FindPageByTitle (search by
database and exact title), CreatePage (create with database parent and
property set) and UpdatePage (patch page properties) are absent from
src/, so they are recorded as trace events whose results come from the
environment. -/
inductive ApiCall where
  | findPage (dbId : String) (title : String) : ApiCall
  | createPage (dbId : String) (props : List (String × PropertyValue)) : ApiCall
  | updatePage (pageId : String) (props : List (String × PropertyValue)) : ApiCall

/-- Is this trace event an UpdatePage call? -/
def ApiCall.isUpdate : ApiCall → Bool
  | .updatePage _ _ => true
  | _ => false

/-- Modelled from the spec: the People database as seen through the
missing client methods — find returns the identifier of an existing page
with the given title, create returns the identifier a newly created page
receives (API errors, which would abort the whole run, are outside this
effect model). -/
structure PeopleEnv where
  find : String → Option String
  create : String → String

/-- The title property set used when creating a person page
(src/main.go lines 187-197). -/
def personTitleProps (name : String) : List (String × PropertyValue) :=
  [("Name", .mk "" "title" [{ plainText := "", type := "text", text := some ⟨name⟩ }]
      [] none [] none [] none none none none none none [] none none)]

/-- The relation property set written back to the source page
(src/main.go lines 214-224). -/
def relationProps (ids : List String) : List (String × PropertyValue) :=
  [("People", .mk "" "relation" [] [] none [] none [] none none none none none none
      (ids.map RelationRef.mk) none none)]

/-- The per-name loop of the upsert flow (src/main.go lines 169-207):
skip empty names; for each remaining name search the People database,
reuse the found page's identifier or create a new page and use its
identifier.  Returns the API calls issued and the collected identifiers
in processing order. -/
def upsertPersons (env : PeopleEnv) : List String → List ApiCall × List String
  | [] => ([], [])
  | n :: ns =>
    if n = "" then upsertPersons env ns
    else
      let step : List ApiCall × String :=
        match env.find n with
        | some pid => ([.findPage NotionPeopleDatabaseID n], pid)
        | none => ([.findPage NotionPeopleDatabaseID n,
                    .createPage NotionPeopleDatabaseID (personTitleProps n)],
                   env.create n)
      let rest := upsertPersons env ns
      (step.1 ++ rest.1, step.2 :: rest.2)

/-- The per-page upsert flow from the Who string onward (src/main.go
lines 165-229): collect person-page identifiers, then, unless the
collected list is empty, issue exactly one update replacing the page's
People relation with those identifiers. -/
def upsertPage (env : PeopleEnv) (pageId : String) (who : String) : List ApiCall :=
  let r := upsertPersons env (extractPersons who)
  if r.2.isEmpty then r.1
  else r.1 ++ [.updatePage pageId (relationProps r.2)]

/- ===== Client.Do status handling (src/internal/notion/notion.go) ===== -/

/-- The status check of Client.Do (src/internal/notion/notion.go lines
75-78): for a status code outside 200-299 return the error message
built by fmt.Errorf (which embeds the method, the path, the decimal
status code and the white-space-trimmed response body); for a 2xx status
return none and Do goes on to decode the body. -/
def doStatusError (method path : String) (status : Nat) (body : String) :
    Option String :=
  if status < 200 || 300 ≤ status then
    some ("notion API " ++ method ++ " " ++ path ++ " failed: status=" ++
      natRepr status ++ " body=" ++ goTrimSpace body)
  else none

/- ===== Selected-payload view (for the dependency claim) ===== -/

/-- The value ExtractStrings returns for a date payload: the start alone,
or start, arrow, end when a non-empty end is present. -/
def dateDisplay (d : DateValue) : String :=
  match d.«end» with
  | some e => if e ≠ "" then d.start ++ " → " ++ e else d.start
  | none => d.start

mutual

/-- The discriminator-selected payload of a property value: the Type
discriminator chooses which single field the extractor reads, and for
formula and rollup values the nested discriminator chooses the nested
field, recursively through rollup arrays (where each element contributes
its own type and selected payload). -/
inductive SelView where
  | vTitle (l : List RichText) : SelView
  | vRichText (l : List RichText) : SelView
  | vSelect (o : Option SelectOption) : SelView
  | vStatus (o : Option SelectOption) : SelView
  | vMultiSelect (l : List SelectOption) : SelView
  | vPeople (l : List User) : SelView
  | vEmail (o : Option String) : SelView
  | vUrl (o : Option String) : SelView
  | vPhone (o : Option String) : SelView
  | vNumber (o : Option Float64) : SelView
  | vCheckbox (o : Option Bool) : SelView
  | vDate (o : Option DateValue) : SelView
  | vRelation (l : List RelationRef) : SelView
  | vFormulaNone : SelView
  | vFormulaString (o : Option String) : SelView
  | vFormulaNumber (o : Option Float64) : SelView
  | vFormulaBoolean (o : Option Bool) : SelView
  | vFormulaDate (o : Option DateValue) : SelView
  | vFormulaOther : SelView
  | vRollupNone : SelView
  | vRollupNumber (o : Option Float64) : SelView
  | vRollupDate (o : Option DateValue) : SelView
  | vRollupArray (l : List (String × SelView)) : SelView
  | vRollupOther : SelView
  | vOther : SelView

end

mutual

/-- The selected payload of a property value (see SelView). -/
def selView : PropertyValue → SelView
  | .mk _ ty title rich sel ms st ppl em u ph num cb dt rel f ro =>
    match ty with
    | "title" => .vTitle title
    | "rich_text" => .vRichText rich
    | "select" => .vSelect sel
    | "status" => .vStatus st
    | "multi_select" => .vMultiSelect ms
    | "people" => .vPeople ppl
    | "email" => .vEmail em
    | "url" => .vUrl u
    | "phone_number" => .vPhone ph
    | "number" => .vNumber num
    | "checkbox" => .vCheckbox cb
    | "date" => .vDate dt
    | "relation" => .vRelation rel
    | "formula" =>
      match f with
      | none => .vFormulaNone
      | some fv =>
        match fv.type with
        | "string" => .vFormulaString fv.string
        | "number" => .vFormulaNumber fv.number
        | "boolean" => .vFormulaBoolean fv.boolean
        | "date" => .vFormulaDate fv.date
        | _ => .vFormulaOther
    | "rollup" =>
      match ro with
      | none => .vRollupNone
      | some (.mk rty rnum rdt arr) =>
        match rty with
        | "number" => .vRollupNumber rnum
        | "date" => .vRollupDate rdt
        | "array" => .vRollupArray (selViewList arr)
        | _ => .vRollupOther
    | _ => .vOther

/-- The types and selected payloads of the elements of a rollup array. -/
def selViewList : List PropertyValue → List (String × SelView)
  | [] => []
  | x :: xs => (x.type, selView x) :: selViewList xs

end

mutual

/-- What ExtractStrings computes from a selected payload alone: used to
state and prove that the extractor's output depends only on the Type
discriminator and the field that discriminator selects. -/
def extractOfView : SelView → List String
  | .vTitle l => if concatRichText l = "" then [] else [concatRichText l]
  | .vRichText l => if concatRichText l = "" then [] else [concatRichText l]
  | .vSelect o =>
    match o with
    | none => []
    | some o => if o.name = "" then [] else [o.name]
  | .vStatus o =>
    match o with
    | none => []
    | some o => if o.name = "" then [] else [o.name]
  | .vMultiSelect l =>
    if l.isEmpty then []
    else l.filterMap (fun o => if o.name = "" then none else some o.name)
  | .vPeople l =>
    if l.isEmpty then []
    else l.filterMap (fun u =>
      if u.name ≠ "" then some u.name
      else if u.id ≠ "" then some u.id
      else none)
  | .vEmail o =>
    match o with
    | none => []
    | some s => if s = "" then [] else [s]
  | .vUrl o =>
    match o with
    | none => []
    | some s => if s = "" then [] else [s]
  | .vPhone o =>
    match o with
    | none => []
    | some s => if s = "" then [] else [s]
  | .vNumber o =>
    match o with
    | none => []
    | some x => [formatFloat x]
  | .vCheckbox o =>
    match o with
    | none => []
    | some b => [formatBool b]
  | .vDate o =>
    match o with
    | none => []
    | some d =>
      if d.start = "" then []
      else
        match d.«end» with
        | some e => if e ≠ "" then [d.start ++ " → " ++ e] else [d.start]
        | none => [d.start]
  | .vRelation l =>
    if l.isEmpty then []
    else l.filterMap (fun r => if r.id ≠ "" then some r.id else none)
  | .vFormulaNone => []
  | .vFormulaString o =>
    match o with
    | none => []
    | some s => if s = "" then [] else [s]
  | .vFormulaNumber o =>
    match o with
    | none => []
    | some x => [formatFloat x]
  | .vFormulaBoolean o =>
    match o with
    | none => []
    | some b => [formatBool b]
  | .vFormulaDate o =>
    match o with
    | none => []
    | some d =>
      if d.start = "" then []
      else
        match d.«end» with
        | some e => if e ≠ "" then [d.start ++ " → " ++ e] else [d.start]
        | none => [d.start]
  | .vFormulaOther => []
  | .vRollupNone => []
  | .vRollupNumber o =>
    match o with
    | none => []
    | some x => [formatFloat x]
  | .vRollupDate o =>
    match o with
    | none => []
    | some d =>
      if d.start = "" then []
      else
        match d.«end» with
        | some e => if e ≠ "" then [d.start ++ " → " ++ e] else [d.start]
        | none => [d.start]
  | .vRollupArray l => extractOfViewList l
  | .vRollupOther => []
  | .vOther => []

/-- extractOfView over the elements of a rollup-array view (the type
component of each element plays no role in the output). -/
def extractOfViewList : List (String × SelView) → List String
  | [] => []
  | (_, v) :: rest => extractOfView v ++ extractOfViewList rest

end

/- ===== Fuel-bounded extraction (for the termination claim) ===== -/

/-- ExtractStrings with an explicit bound on the recursion depth through
rollup arrays: none when the fuel runs out, otherwise exactly the
recursion of ExtractStrings. -/
def ExtractStringsFuel : Nat → PropertyValue → Option (List String)
  | 0, _ => none
  | fuel + 1, p =>
    match p.type with
    | "rollup" =>
      match p.rollup with
      | none => some (ExtractStrings p)
      | some r =>
        match r.type with
        | "array" =>
          (r.array.mapM (ExtractStringsFuel fuel)).map List.flatten
        | _ => some (ExtractStrings p)
    | _ => some (ExtractStrings p)

/- ===== Concrete sample data used by witnesses and examples ===== -/

/-- A page whose Who property is a multi_select with options b then a. -/
def pageBA : Page :=
  { object := "page", id := "p1",
    properties := [("Who",
      .mk "" "multi_select" [] [] none [⟨"b"⟩, ⟨"a"⟩] none [] none none none none
        none none [] none none)] }

/-- A page whose Who property is a rich_text reading b. -/
def pageB2 : Page :=
  { object := "page", id := "p2",
    properties := [("Who",
      .mk "" "rich_text" [] [{ plainText := "b" }] none [] none [] none none none
        none none none [] none none)] }

/-- A page that has no Who property at all. -/
def pageNoWho : Page :=
  { object := "page", id := "p3",
    properties := [("Name",
      .mk "" "rich_text" [] [{ plainText := "n" }] none [] none [] none none none
        none none none [] none none)] }

/-- First response of the two-page sample script: more pages follow. -/
def sampleResp1 : QueryResponse :=
  { object := "list", results := [pageBA], hasMore := true, nextCursor := some "c1" }

/-- Second response of the two-page sample script: the last page. -/
def sampleResp2 : QueryResponse :=
  { object := "list", results := [pageB2], hasMore := false, nextCursor := none }

/-- The two-response sample script: extracted values b, a, then b. -/
def sampleScript : List QueryResponse := [sampleResp1, sampleResp2]

/-- A response whose second page lacks the Who property although the
third one has it again, and which claims more pages follow. -/
def respMissingWho : QueryResponse :=
  { object := "list", results := [pageBA, pageNoWho, pageB2],
    hasMore := true, nextCursor := some "c9" }

/-- A date property value with both start and end dates. -/
def samplePVDate : PropertyValue :=
  .mk "" "date" [] [] none [] none [] none none none none none
    (some ⟨"2024-01-01", some "2024-01-05"⟩) [] none none

/-- A select property value whose unselected payload fields carry junk:
compare with samplePVSelectB. -/
def samplePVSelectA : PropertyValue :=
  .mk "idA" "select" [] [] (some ⟨"A"⟩) [] none [] (some "junk@x") none none
    none none none [] none none

/-- A select property value agreeing with samplePVSelectA on the type
and the selected field only. -/
def samplePVSelectB : PropertyValue :=
  .mk "idB" "select" [{ plainText := "junk" }] [] (some ⟨"A"⟩) [] none []
    none none none none (some true) none [] none none

/-- A number property value. -/
def samplePVNum : PropertyValue :=
  .mk "" "number" [] [] none [] none [] none none none
    (some (.finite false 25 (-1))) none none [] none none

/-- A rollup array nesting another rollup array: extraction recurses two
levels deep. -/
def samplePVNested : PropertyValue :=
  .mk "" "rollup" [] [] none [] none [] none none none none none none [] none
    (some (.mk "array" none none
      [.mk "" "rollup" [] [] none [] none [] none none none none none none [] none
         (some (.mk "array" none none [samplePVDate])),
       samplePVNum]))

/-- A sample People-database environment: Alice already exists, every
other name gets a fresh identifier derived from the name. -/
def sampleEnv : PeopleEnv :=
  { find := fun n => if n = "Alice" then some "id-alice" else none,
    create := fun n => "new-" ++ n }


/- ===== Helper lemmas ===== -/

theorem sizeOf_pos (p : PropertyValue) : 0 < sizeOf p := by
  cases p; simp_arith

theorem str_append_ne_empty_left (a b : String) (h : a ≠ "") : a ++ b ≠ "" := by
  intro he
  have h2 := congrArg String.data he
  rw [String.data_append] at h2
  have h3 : a.data = [] := (List.append_eq_nil.mp h2).1
  apply h
  cases a with
  | mk d => simp_all

theorem natDigitsCore_length (fuel : Nat) : ∀ (n : Nat) (acc : List Char),
    acc.length ≤ (natDigitsCore fuel n acc).length := by
  induction fuel with
  | zero => intro n acc; simp [natDigitsCore]
  | succ f ih =>
    intro n acc
    simp only [natDigitsCore]
    split
    · simp
    · exact le_trans (by simp) (ih (n / 10) _)

theorem natDigitsCore_ne_nil (fuel n : Nat) (acc : List Char) :
    natDigitsCore (fuel + 1) n acc ≠ [] := by
  intro h
  have h1 : (acc.length + 1 : Nat) ≤ (natDigitsCore (fuel + 1) n acc).length := by
    simp only [natDigitsCore]
    split
    · simp
    · exact le_trans (by simp) (natDigitsCore_length fuel (n / 10) _)
  rw [h] at h1
  simp at h1

theorem natRepr_ne_empty (n : Nat) : natRepr n ≠ "" := by
  intro h
  exact natDigitsCore_ne_nil n n [] (congrArg String.data h)

theorem mk_ne_empty_of_ne_nil (l : List Char) (h : l ≠ []) : String.mk l ≠ "" := by
  intro he
  exact h (congrArg String.data he)

theorem decimalShift_ne_nil (digits : List Char) (hd : digits ≠ []) (k : Nat) :
    decimalShift digits k ≠ [] := by
  have hlen : 0 < digits.length := List.length_pos.mpr hd
  unfold decimalShift
  split
  · exact hd
  · split
    · simp
    · intro h
      have h2 := congrArg List.length h
      simp at h2

theorem formatFloat_ne_empty (x : Float64) : formatFloat x ≠ "" := by
  cases x with
  | nan => decide
  | inf neg => cases neg <;> decide
  | finite neg m e =>
    simp only [formatFloat]
    split
    · apply str_append_ne_empty_left
      decide
    · split
      · exact natRepr_ne_empty _
      · apply mk_ne_empty_of_ne_nil
        apply decimalShift_ne_nil
        exact fun h => natDigitsCore_ne_nil m m [] h

theorem formatBool_ne_empty (b : Bool) : formatBool b ≠ "" := by
  cases b <;> decide

theorem mem_extractList (s : String) (l : List PropertyValue) :
    s ∈ extractList l ↔ ∃ x ∈ l, s ∈ ExtractStrings x := by
  induction l with
  | nil => simp [extractList]
  | cons x xs ih => simp [extractList, ih]

theorem extract_nonempty_aux : ∀ (n : Nat) (p : PropertyValue), sizeOf p ≤ n →
    ∀ s ∈ ExtractStrings p, s ≠ "" := by
  intro n
  induction n with
  | zero =>
    intro p hp
    have := sizeOf_pos p
    omega
  | succ k ih =>
    intro p hp s hs
    cases p with
    | mk i t ti ri se ms st pp em u ph nu cb dt re f ro =>
      unfold ExtractStrings at hs
      split at hs
      -- title
      · split at hs
        · simp at hs
        · simp at hs; subst hs; assumption
      -- rich_text
      · split at hs
        · simp at hs
        · simp at hs; subst hs; assumption
      -- select
      · split at hs
        · simp at hs
        · split at hs
          · simp at hs
          · simp at hs; subst hs; assumption
      -- status
      · split at hs
        · simp at hs
        · split at hs
          · simp at hs
          · simp at hs; subst hs; assumption
      -- multi_select
      · split at hs
        · simp at hs
        · simp only [List.mem_filterMap] at hs
          obtain ⟨o, _, ho⟩ := hs
          split at ho
          · simp at ho
          · simp at ho; subst ho; assumption
      -- people
      · split at hs
        · simp at hs
        · simp only [List.mem_filterMap] at hs
          obtain ⟨o, _, ho⟩ := hs
          split at ho
          · simp at ho; subst ho; assumption
          · split at ho
            · simp at ho; subst ho; assumption
            · simp at ho
      -- email
      · split at hs
        · simp at hs
        · split at hs
          · simp at hs
          · simp at hs; subst hs; assumption
      -- url
      · split at hs
        · simp at hs
        · split at hs
          · simp at hs
          · simp at hs; subst hs; assumption
      -- phone_number
      · split at hs
        · simp at hs
        · split at hs
          · simp at hs
          · simp at hs; subst hs; assumption
      -- number
      · split at hs
        · simp at hs
        · simp at hs; subst hs; exact formatFloat_ne_empty _
      -- checkbox
      · split at hs
        · simp at hs
        · simp at hs; subst hs; exact formatBool_ne_empty _
      -- date
      · split at hs
        · simp at hs
        · split at hs
          · simp at hs
          · split at hs
            · split at hs
              · simp at hs; subst hs
                exact str_append_ne_empty_left _ _ (str_append_ne_empty_left _ _ (by assumption))
              · simp at hs; subst hs; assumption
            · simp at hs; subst hs; assumption
      -- relation
      · split at hs
        · simp at hs
        · simp only [List.mem_filterMap] at hs
          obtain ⟨o, _, ho⟩ := hs
          split at ho
          · simp at ho; subst ho; assumption
          · simp at ho
      -- formula
      · split at hs
        · simp at hs
        · split at hs
          · split at hs
            · simp at hs
            · split at hs
              · simp at hs
              · simp at hs; subst hs; assumption
          · split at hs
            · simp at hs
            · simp at hs; subst hs; exact formatFloat_ne_empty _
          · split at hs
            · simp at hs
            · simp at hs; subst hs; exact formatBool_ne_empty _
          · split at hs
            · simp at hs
            · split at hs
              · simp at hs
              · split at hs
                · split at hs
                  · simp at hs; subst hs
                    exact str_append_ne_empty_left _ _ (str_append_ne_empty_left _ _ (by assumption))
                  · simp at hs; subst hs; assumption
                · simp at hs; subst hs; assumption
          · simp at hs
      -- rollup
      · split at hs
        · simp at hs
        · split at hs
          · split at hs
            · simp at hs
            · simp at hs; subst hs; exact formatFloat_ne_empty _
          · split at hs
            · simp at hs
            · split at hs
              · simp at hs
              · split at hs
                · split at hs
                  · simp at hs; subst hs
                    exact str_append_ne_empty_left _ _ (str_append_ne_empty_left _ _ (by assumption))
                  · simp at hs; subst hs; assumption
                · simp at hs; subst hs; assumption
          · rw [mem_extractList] at hs
            obtain ⟨x, hx, hsx⟩ := hs
            have h1 := List.sizeOf_lt_of_mem hx
            simp only [PropertyValue.mk.sizeOf_spec, RollupValue.mk.sizeOf_spec,
              Option.some.sizeOf_spec] at hp
            exact ih x (by omega) s hsx
          · simp at hs
      -- unknown type
      · simp at hs

theorem extract_eq_extractOfView_aux : ∀ (n : Nat) (p : PropertyValue), sizeOf p ≤ n →
    ExtractStrings p = extractOfView (selView p) := by
  intro n
  induction n with
  | zero =>
    intro p hp
    have := sizeOf_pos p
    omega
  | succ k ih =>
    intro p hp
    have harr : ∀ (l : List PropertyValue), (∀ x ∈ l, sizeOf x ≤ k) →
        extractList l = extractOfViewList (selViewList l) := by
      intro l
      induction l with
      | nil => intro _; rfl
      | cons x xs ihl =>
        intro hsz
        simp only [extractList, selViewList, extractOfViewList]
        rw [ih x (hsz x (by simp)), ihl (fun z hz => hsz z (by simp [hz]))]
    cases p with
    | mk i t ti ri se ms st pp em u ph nu cb dt re f ro =>
      unfold ExtractStrings selView
      split
      · rfl
      · rfl
      · rfl
      · rfl
      · rfl
      · rfl
      · rfl
      · rfl
      · rfl
      · rfl
      · rfl
      · rfl
      · rfl
      -- formula
      · cases f with
        | none => rfl
        | some fv =>
          cases fv with
          | mk ftype fstr fnum fbool fdate =>
            dsimp only
            split <;> rfl
      -- rollup
      · cases ro with
        | none => rfl
        | some r =>
          cases r with
          | mk rty rnum rdt arr =>
            dsimp only
            split
            · rfl
            · rfl
            · -- array
              simp only [extractOfView]
              apply harr
              intro x hx
              have h1 := List.sizeOf_lt_of_mem hx
              simp only [PropertyValue.mk.sizeOf_spec, RollupValue.mk.sizeOf_spec,
                Option.some.sizeOf_spec] at hp
              omega
            · rfl
      · rfl

theorem extractList_eq_flatten (l : List PropertyValue) :
    extractList l = (l.map ExtractStrings).flatten := by
  induction l with
  | nil => rfl
  | cons x xs ihl => simp [extractList, ihl]

theorem mapM_extract (kk : Nat) (l : List PropertyValue)
    (h : ∀ x ∈ l, ExtractStringsFuel kk x = some (ExtractStrings x)) :
    l.mapM (ExtractStringsFuel kk) = some (l.map ExtractStrings) := by
  induction l with
  | nil => rfl
  | cons x xs ihl =>
    rw [List.mapM_cons, h x (by simp), ihl (fun z hz => h z (by simp [hz]))]
    rfl

/-- C10: ExtractStrings terminates on every finite PropertyValue: its only
recursion is through the elements of rollup arrays, which are structurally
smaller, so the fuel-bounded variant of the recursion already reaches the
result of the total function whenever the fuel is at least the structural
size of the input — rollup arrays nested to any finite depth still yield a
result. -/
theorem c10_extraction_terminates (n : Nat) : ∀ (p : PropertyValue), sizeOf p ≤ n →
    ExtractStringsFuel n p = some (ExtractStrings p) := by
  induction n with
  | zero =>
    intro p hp
    have := sizeOf_pos p
    omega
  | succ k ih =>
    intro p hp
    cases p with
    | mk i t ti ri se ms st pp em u ph nu cb dt re f ro =>
      unfold ExtractStringsFuel
      dsimp only [PropertyValue.type, PropertyValue.rollup]
      split
      · -- rollup
        cases ro with
        | none => rfl
        | some r =>
          cases r with
          | mk rty rnum rdt arr =>
            dsimp only [RollupValue.type, RollupValue.array]
            split
            · -- array
              rw [mapM_extract k arr]
              · show some ((arr.map ExtractStrings).flatten) = _
                rw [← extractList_eq_flatten]
                rfl
              · intro x hx
                apply ih
                have h1 := List.sizeOf_lt_of_mem hx
                simp only [PropertyValue.mk.sizeOf_spec, RollupValue.mk.sizeOf_spec,
                  Option.some.sizeOf_spec] at hp
                omega
            · rfl
      · rfl

/-- C1: for a response script whose first response has has_more=true and a
non-empty next_cursor and whose second has has_more=false, the query loop
issues exactly two requests — the second carrying the first response
cursor as start_cursor — and prints the results of the first response
followed by those of the second, in order; and in general the loop
continues past a response exactly when has_more is true and next_cursor
is present and non-empty. -/
theorem c1_pagination (field : String) :
    (∀ (r1 r2 : QueryResponse) (rest : List QueryResponse) (c : String),
      r1.hasMore = true → r1.nextCursor = some c → c ≠ "" → r2.hasMore = false →
      (processResults field r1.results).2 = none →
      (processResults field r2.results).2 = none →
      queryLoop field none (r1 :: r2 :: rest) =
        ([⟨DefaultPageSize, none⟩, ⟨DefaultPageSize, some c⟩],
         (processResults field r1.results).1 ++ (processResults field r2.results).1,
         none)) ∧
    (∀ (resp : QueryResponse) (rest2 : List QueryResponse) (cur : Option String),
      (processResults field resp.results).2 = none →
      ((resp.hasMore = true ∧ ∃ c2, resp.nextCursor = some c2 ∧ c2 ≠ "") →
        queryLoop field cur (resp :: rest2) =
          (⟨DefaultPageSize, cur⟩ :: (queryLoop field resp.nextCursor rest2).1,
           (processResults field resp.results).1 ++
             (queryLoop field resp.nextCursor rest2).2.1,
           (queryLoop field resp.nextCursor rest2).2.2)) ∧
      (¬(resp.hasMore = true ∧ ∃ c2, resp.nextCursor = some c2 ∧ c2 ≠ "") →
        queryLoop field cur (resp :: rest2) =
          ([⟨DefaultPageSize, cur⟩], (processResults field resp.results).1, none))) := by
  constructor
  · intro r1 r2 rest c h1 h2 h3 h4 e1 e2
    have hc : ((some c : Option String) == some "") = false := by
      simp [h3]
    simp [queryLoop, e1, e2, h1, h2, h4, hc]
  · intro resp rest2 cur e1
    constructor
    · rintro ⟨hm, c2, hc2, hne⟩
      have hc : ((some c2 : Option String) == some "") = false := by
        simp [hne]
      simp [queryLoop, e1, hm, hc2, hc]
    · intro hnot
      by_cases hm : resp.hasMore = true
      · -- then cursor must be none or empty
        cases hcur : resp.nextCursor with
        | none => simp [queryLoop, e1, hm, hcur]
        | some c2 =>
          have : c2 = "" := by
            by_contra hne
            exact hnot ⟨hm, c2, hcur, hne⟩
          subst this
          simp [queryLoop, e1, hm, hcur]
      · have hm' : resp.hasMore = false := by
          cases h : resp.hasMore
          · rfl
          · exact absurd h hm
        simp [queryLoop, e1, hm']

theorem processResults_prefix_error (field : String) (bad : Page) (post : List Page) :
    ∀ (pre : List Page),
    (∀ pg ∈ pre, (lookupProp pg.properties field).isSome) →
    lookupProp bad.properties field = none →
    processResults field (pre ++ bad :: post) =
      ((processResults field pre).1, some (.missingProperty field)) := by
  intro pre
  induction pre with
  | nil =>
    intro _ hbad
    simp [processResults, hbad]
  | cons pg pgs ih =>
    intro hpre hbad
    have hsome := hpre pg (by simp)
    obtain ⟨v, hv⟩ := Option.isSome_iff_exists.mp hsome
    have ih2 := ih (fun z hz => hpre z (by simp [hz])) hbad
    simp only [List.cons_append, processResults, hv, List.append_eq, ih2]

/-- C6: if some returned page lacks the configured property, the run
fails with an error at the first such page: only pages before it
contribute output, nothing from it or any later page or response is
emitted, and no further request is issued, regardless of what follows. -/
theorem c6_abort_on_missing_property (field : String) (cur : Option String) (resp : QueryResponse)
    (rest : List QueryResponse) (pre post : List Page) (bad : Page)
    (hres : resp.results = pre ++ bad :: post)
    (hpre : ∀ pg ∈ pre, (lookupProp pg.properties field).isSome)
    (hbad : lookupProp bad.properties field = none) :
    queryLoop field cur (resp :: rest) =
      ([⟨DefaultPageSize, cur⟩], (processResults field pre).1,
       some (.missingProperty field)) := by
  simp [queryLoop, hres, processResults_prefix_error field bad post pre hpre hbad]

theorem takeEq_append (l r : List Char) : takeEq l (l ++ r) = true := by
  induction l with
  | nil => rfl
  | cons a as ih => simp [takeEq, ih]

theorem containsSubAux_of_takeEq (needle hay : List Char)
    (h : takeEq needle hay = true) : containsSubAux needle hay = true := by
  cases hay with
  | nil => simpa [containsSubAux] using h
  | cons c cs => simp [containsSubAux, h]

theorem containsSub_intro (needle hay : List Char) (pre post : List Char)
    (h : hay = pre ++ (needle ++ post)) : containsSubAux needle hay = true := by
  subst h
  induction pre with
  | nil => exact containsSubAux_of_takeEq _ _ (takeEq_append needle post)
  | cons c cs ih => simp [containsSubAux, ih]

theorem extract_date_typed (p : PropertyValue) (d : DateValue)
    (h : p.type = "date") (hd : p.date = some d) (hs : d.start ≠ "") :
    ExtractStrings p = [dateDisplay d] := by
  cases p with
  | mk i t ti ri se ms st pp em u ph nu cb dt re f ro =>
    simp only [PropertyValue.type, PropertyValue.date] at h hd
    subst h
    subst hd
    cases d with
    | mk ds de =>
      simp only [DateValue.start] at hs
      unfold ExtractStrings dateDisplay
      cases de with
      | none => simp [hs]
      | some e => by_cases he : e = "" <;> simp [hs, he]

theorem extract_formula_date (p : PropertyValue) (fv : FormulaValue) (d : DateValue)
    (h : p.type = "formula") (hf : p.formula = some fv) (hft : fv.type = "date")
    (hfd : fv.date = some d) (hs : d.start ≠ "") :
    ExtractStrings p = [dateDisplay d] := by
  cases p with
  | mk i t ti ri se ms st pp em u ph nu cb dt re f ro =>
    simp only [PropertyValue.type, PropertyValue.formula] at h hf
    subst h
    subst hf
    cases fv with
    | mk ft fs fn fb fd =>
      simp only [FormulaValue.type, FormulaValue.date] at hft hfd
      subst hft
      subst hfd
      cases d with
      | mk ds de =>
        simp only [DateValue.start] at hs
        unfold ExtractStrings dateDisplay
        cases de with
        | none => simp [hs]
        | some e => by_cases he : e = "" <;> simp [hs, he]

theorem extract_rollup_date (p : PropertyValue) (r : RollupValue) (d : DateValue)
    (h : p.type = "rollup") (hr : p.rollup = some r) (hrt : r.type = "date")
    (hrd : r.date = some d) (hs : d.start ≠ "") :
    ExtractStrings p = [dateDisplay d] := by
  cases p with
  | mk i t ti ri se ms st pp em u ph nu cb dt re f ro =>
    simp only [PropertyValue.type, PropertyValue.rollup] at h hr
    subst h
    subst hr
    cases r with
    | mk rt rn rd ra =>
      simp only [RollupValue.type, RollupValue.date] at hrt hrd
      subst hrt
      subst hrd
      cases d with
      | mk ds de =>
        simp only [DateValue.start] at hs
        unfold ExtractStrings dateDisplay
        cases de with
        | none => simp [hs]
        | some e => by_cases he : e = "" <;> simp [hs, he]

/-- C4: for every PropertyValue of type date with a non-empty start —
and likewise for the date case of formula and rollup values —
ExtractStrings returns the singleton [start] when the end value is
absent or empty, and [start, arrow, end] when the end value is present
and non-empty. -/
theorem c4_date_rendering (p : PropertyValue) (d : DateValue) (hs : d.start ≠ "")
    (hsc : (p.type = "date" ∧ p.date = some d) ∨
           (p.type = "formula" ∧
             ∃ fv, p.formula = some fv ∧ fv.type = "date" ∧ fv.date = some d) ∨
           (p.type = "rollup" ∧
             ∃ r, p.rollup = some r ∧ r.type = "date" ∧ r.date = some d)) :
    ((d.«end» = none ∨ d.«end» = some "") → ExtractStrings p = [d.start]) ∧
    (∀ e, d.«end» = some e → e ≠ "" → ExtractStrings p = [d.start ++ " → " ++ e]) := by
  have hE : ExtractStrings p = [dateDisplay d] := by
    rcases hsc with ⟨h1, h2⟩ | ⟨h1, fv, h2, h3, h4⟩ | ⟨h1, r, h2, h3, h4⟩
    · exact extract_date_typed p d h1 h2 hs
    · exact extract_formula_date p fv d h1 h2 h3 h4 hs
    · exact extract_rollup_date p r d h1 h2 h3 h4 hs
  constructor
  · intro he
    rw [hE]
    rcases he with he | he <;> simp [dateDisplay, he]
  · intro e he hne
    rw [hE]
    simp [dateDisplay, he, hne]

theorem upsertPersons_no_update (env : PeopleEnv) : ∀ (ns : List String),
    (upsertPersons env ns).1.filter ApiCall.isUpdate = [] := by
  intro ns
  induction ns with
  | nil => rfl
  | cons n rest ih =>
    unfold upsertPersons
    split
    · exact ih
    · cases h : env.find n <;>
        simp [h, List.filter_append, ih, ApiCall.isUpdate]

theorem upsertPersons_ids (env : PeopleEnv) : ∀ (ns : List String),
    (upsertPersons env ns).2 = ns.filterMap (fun n =>
      if n = "" then none
      else some (match env.find n with | some pid => pid | none => env.create n)) := by
  intro ns
  induction ns with
  | nil => rfl
  | cons n rest ih =>
    unfold upsertPersons
    split
    · rename_i hn
      simp [List.filterMap_cons, hn, ih]
    · rename_i hn
      cases h : env.find n <;> simp [List.filterMap_cons, hn, h, ih]

/-- C5: in the person upsert flow, when the collected identifier list is
empty no update call appears in the trace for the page (its existing
relation is untouched, as only updates mutate pages); otherwise the
trace holds exactly one update, replacing the People relation of the
page with exactly the collected identifiers; and the identifiers are
collected in the order the names were processed. -/
theorem c5_upsert_writeback (env : PeopleEnv) (pageId who : String) :
    ((upsertPersons env (extractPersons who)).2.isEmpty = true →
      (upsertPage env pageId who).filter ApiCall.isUpdate = []) ∧
    ((upsertPersons env (extractPersons who)).2.isEmpty = false →
      (upsertPage env pageId who).filter ApiCall.isUpdate =
        [.updatePage pageId
          (relationProps (upsertPersons env (extractPersons who)).2)]) ∧
    (upsertPersons env (extractPersons who)).2 =
      (extractPersons who).filterMap (fun n =>
        if n = "" then none
        else some (match env.find n with | some pid => pid | none => env.create n)) := by
  refine ⟨?_, ?_, upsertPersons_ids env _⟩
  · intro hemp
    simp [upsertPage, hemp, upsertPersons_no_update]
  · intro hne
    simp [upsertPage, hne, List.filter_append, upsertPersons_no_update, ApiCall.isUpdate]

/-- C7 (amended): for every response status outside 200-299 the status
check of Client.Do produces an error whose message carries the request
method, the request path, the decimal status code and the
white-space-trimmed response body (the code trims the body, so the raw
body appears only up to trimming); for every 2xx status it produces no
error. -/
theorem c7_status_error (method path : String) (status : Nat) (body : String) :
    (200 ≤ status ∧ status < 300 → doStatusError method path status body = none) ∧
    (status < 200 ∨ 300 ≤ status →
      ∃ msg, doStatusError method path status body = some msg ∧
        strContains msg method = true ∧ strContains msg path = true ∧
        strContains msg (natRepr status) = true ∧
        strContains msg (goTrimSpace body) = true) := by
  constructor
  · rintro ⟨h1, h2⟩
    have hcond : (decide (status < 200) || decide (300 ≤ status)) = false := by
      simp
      omega
    simp [doStatusError, hcond]
  · intro h
    have hcond : (decide (status < 200) || decide (300 ≤ status)) = true := by
      rcases h with h | h <;> simp [h]
    refine ⟨"notion API " ++ method ++ " " ++ path ++ " failed: status=" ++
      natRepr status ++ " body=" ++ goTrimSpace body,
      by simp [doStatusError, hcond], ?_, ?_, ?_, ?_⟩
    · exact containsSub_intro _ _ ("notion API ").data
        ((" " ++ path ++ " failed: status=" ++ natRepr status ++ " body=" ++
          goTrimSpace body).data)
        (by simp [String.data_append])
    · exact containsSub_intro _ _ ("notion API " ++ method ++ " ").data
        ((" failed: status=" ++ natRepr status ++ " body=" ++ goTrimSpace body).data)
        (by simp [String.data_append])
    · exact containsSub_intro _ _
        ("notion API " ++ method ++ " " ++ path ++ " failed: status=").data
        ((" body=" ++ goTrimSpace body).data)
        (by simp [String.data_append])
    · exact containsSub_intro _ _
        ("notion API " ++ method ++ " " ++ path ++ " failed: status=" ++
          natRepr status ++ " body=").data
        ([])
        (by simp [String.data_append])

/- ===== Claim theorems, counterexamples and witnesses ===== -/

/-- C2: for every PropertyValue, of any supported variant including
arbitrarily nested rollup arrays, every string ExtractStrings returns is
non-empty. -/
theorem c2_extractor_no_empty_strings (p : PropertyValue) :
    (ExtractStrings p).all (fun s => !(s == "")) = true := by
  rw [List.all_eq_true]
  intro s hs
  have h := extract_nonempty_aux (sizeOf p) p le_rfl s hs
  simpa using h

/-- C3 counterexample: on the input with two spaces before Carol the
person-name splitting step does not yield the two names the claim
states, because the separator comma-space also matches inside that
input. -/
theorem c3_split_counterexample :
    extractPersons "Alice, Bob,  Carol" ≠ ["Alice", "Bob,  Carol"] := by decide

/-- C3 (amended): the person-name splitting step splits only on the
exact comma-space separator, which also occurs before the double space,
so the raw split of the input is Alice, Bob and space-Carol, and after
trimming extractPersons yields the three names Alice, Bob, Carol. -/
theorem c3_split_amended :
    stringsSplit "Alice, Bob,  Carol" ", " = ["Alice", "Bob", " Carol"] ∧
    extractPersons "Alice, Bob,  Carol" = ["Alice", "Bob", "Carol"] := by decide

/-- C8: the basic variant takes a flag selecting deduplicated sorted
output versus streaming output; in unique mode nothing is printed during
the traversal, and on the sample script whose extracted values are b, a,
b the final output is a, b (sorted, deduplicated) printed only after the
traversal, while streaming mode prints b, a, b during it. -/
theorem c8_unique_mode :
    (∀ (field : String) (script : List QueryResponse),
      (runBasic true field script).1 = []) ∧
    runBasic true "Who" sampleScript = ([], ["a", "b"]) ∧
    runBasic false "Who" sampleScript = (["b", "a", "b"], []) := by
  refine ⟨?_, by decide, by decide⟩
  intro field script
  simp [runBasic]

/-- C9: the output of ExtractStrings depends only on the Type
discriminator and the payload field that discriminator selects,
including the nested formula and rollup discriminators and their
selected fields: property values agreeing on those yield equal outputs
whatever their other payload fields hold. -/
theorem c9_selected_payload_determines_output (p q : PropertyValue) (_hty : p.type = q.type)
    (hv : selView p = selView q) : ExtractStrings p = ExtractStrings q := by
  rw [extract_eq_extractOfView_aux (sizeOf p) p le_rfl,
      extract_eq_extractOfView_aux (sizeOf q) q le_rfl, hv]

/-- Witness for C9: two select values agreeing on type and selected
payload but differing in the email and other junk fields extract
equally. -/
theorem c9_selected_payload_witness :
    (samplePVSelectA.type = samplePVSelectB.type ∧
     selView samplePVSelectA = selView samplePVSelectB ∧
     samplePVSelectA.email ≠ samplePVSelectB.email) ∧
    ExtractStrings samplePVSelectA = ExtractStrings samplePVSelectB :=
  ⟨⟨rfl, rfl, by decide⟩, c9_selected_payload_determines_output samplePVSelectA samplePVSelectB rfl rfl⟩

/-- Witness for C10: a rollup array nested inside a rollup array is
extracted by the fuel-bounded recursion with concrete fuel. -/
theorem c10_extraction_witness :
    sizeOf samplePVNested ≤ 100000 ∧
    ExtractStringsFuel 100000 samplePVNested = some (ExtractStrings samplePVNested) :=
  ⟨by decide, c10_extraction_terminates 100000 samplePVNested (by decide)⟩

/-- Witness for C1: on the concrete two-response sample script the loop
issues exactly the two expected requests and prints b, a, b. -/
theorem c1_pagination_witness :
    (sampleResp1.hasMore = true ∧ sampleResp1.nextCursor = some "c1" ∧
     ("c1" : String) ≠ "" ∧ sampleResp2.hasMore = false ∧
     (processResults "Who" sampleResp1.results).2 = none ∧
     (processResults "Who" sampleResp2.results).2 = none) ∧
    queryLoop "Who" none [sampleResp1, sampleResp2] =
      ([⟨DefaultPageSize, none⟩, ⟨DefaultPageSize, some "c1"⟩], ["b", "a", "b"], none) := by
  refine ⟨⟨rfl, rfl, by decide, rfl, by decide, by decide⟩, ?_⟩
  have h := (c1_pagination "Who").1 sampleResp1 sampleResp2 [] "c1" rfl rfl (by decide) rfl
    (by decide) (by decide)
  exact h.trans (by decide)

/-- Witness for C6: a response whose second page lacks Who aborts the
run after the first page and issues no further request even though more
pages were available. -/
theorem c6_abort_witness :
    (respMissingWho.results = [pageBA] ++ pageNoWho :: [pageB2] ∧
     (∀ pg ∈ [pageBA], (lookupProp pg.properties "Who").isSome) ∧
     lookupProp pageNoWho.properties "Who" = none) ∧
    queryLoop "Who" none (respMissingWho :: [sampleResp2]) =
      ([⟨DefaultPageSize, none⟩], ["b", "a"], some (.missingProperty "Who")) := by
  refine ⟨⟨rfl, by decide, rfl⟩, ?_⟩
  have h := c6_abort_on_missing_property "Who" none respMissingWho [sampleResp2] [pageBA] [pageB2] pageNoWho
    rfl (by decide) rfl
  exact h.trans (by decide)

/-- Witness for C4: a date with both start and end renders as start,
arrow, end. -/
theorem c4_date_rendering_witness :
    (samplePVDate.type = "date" ∧
     samplePVDate.date = some ⟨"2024-01-01", some "2024-01-05"⟩ ∧
     ("2024-01-01" : String) ≠ "" ∧ ("2024-01-05" : String) ≠ "") ∧
    ExtractStrings samplePVDate = ["2024-01-01 → 2024-01-05"] := by
  refine ⟨⟨rfl, rfl, by decide, by decide⟩, ?_⟩
  have h := (c4_date_rendering samplePVDate ⟨"2024-01-01", some "2024-01-05"⟩ (by decide)
    (Or.inl ⟨rfl, rfl⟩)).2 "2024-01-05" rfl (by decide)
  exact h.trans (by decide)

/-- Witness for C5: upserting Alice (existing) and Bob (created) issues
exactly one update carrying their identifiers in processing order. -/
theorem c5_upsert_writeback_witness :
    ((upsertPersons sampleEnv (extractPersons "Alice, Bob")).2.isEmpty = false) ∧
    (upsertPage sampleEnv "src1" "Alice, Bob").filter ApiCall.isUpdate =
      [.updatePage "src1" (relationProps ["id-alice", "new-Bob"])] := by
  refine ⟨by decide, ?_⟩
  have h := (c5_upsert_writeback sampleEnv "src1" "Alice, Bob").2.1 (by decide)
  exact h.trans (by rfl)

/-- C7 counterexample: for the body consisting of x surrounded by
spaces, the error message of the status check does not contain the raw
body, because the body is trimmed before being embedded. -/
theorem c7_raw_body_counterexample :
    (doStatusError "POST" "/p" 500 " x ").isSome = true ∧
    strContains ((doStatusError "POST" "/p" 500 " x ").getD "") " x " = false := by
  decide

/-- Witness for C7: status 500 with body oops produces an error carrying
method, path, status and trimmed body. -/
theorem c7_status_error_witness :
    ((500 : Nat) < 200 ∨ 300 ≤ (500 : Nat)) ∧
    (∃ msg, doStatusError "POST" "/path" 500 "oops" = some msg ∧
      strContains msg "POST" = true ∧ strContains msg "/path" = true ∧
      strContains msg (natRepr 500) = true ∧
      strContains msg (goTrimSpace "oops") = true) :=
  ⟨Or.inr (by omega), (c7_status_error "POST" "/path" 500 "oops").2 (Or.inr (by omega))⟩

end NotionTools
